import Mathlib

/-!
Verification development for the up-streamer routing and dispatch engine.

The definitions below are a shallow embedding of the Rust sources of the
repository (crate up-streamer).  Each definition carries a comment naming
the source item it embeds.  Transport handles are identified by an opaque
numeric identity (pointer identity of the Arc handle); the transport itself
is modelled as an environment deciding the outcome of each
register_listener / unregister_listener call, and executions record the
trace of transport calls they perform.
-/

namespace UpStreamer

/-- Model of up_rust UUri restricted to the fields the streamer reads:
authority_name, ue_id (u32), ue_version_major (u32, read back as u8), and
resource_id (u32, read back as u16). -/
structure UUri where
  authority_name : String
  ue_id : Nat
  ue_version_major : Nat
  resource_id : Nat
  deriving DecidableEq, Repr

/-- Embeds ustreamer.rs uauthority_to_uuri: the wildcard URI for one
authority, every identity field at its all-ones sentinel. -/
def uauthority_to_uuri (authority_name : String) : UUri :=
  { authority_name := authority_name
    ue_id := 0xFFFFFFFF
    ue_version_major := 0xFF
    resource_id := 0xFFFF }

/-- Embeds the up_rust accessor uentity_major_version, which narrows the
stored u32 to u8. -/
def UUri.uentity_major_version (u : UUri) : Nat :=
  u.ue_version_major % 2 ^ 8

/-- Embeds the up_rust accessor resource_id, which narrows the stored u32
to u16. -/
def UUri.resource_id_u16 (u : UUri) : Nat :=
  u.resource_id % 2 ^ 16

/-- Model of up_rust UUri::try_from_parts (external crate): builds a URI
from an authority plus u32/u8/u16 identity parts, failing when the
authority name exceeds the 128-character limit of the uProtocol URI
specification. -/
def UUri.try_from_parts (authority : String) (entity_id version_major resource : Nat) :
    Option UUri :=
  if authority.length ≤ 128 then
    some { authority_name := authority
           ue_id := entity_id % 2 ^ 32
           ue_version_major := version_major % 2 ^ 8
           resource_id := resource % 2 ^ 16 }
  else
    none

/-- Model of the subscription_cache crate record consumed by the resolver:
a topic URI together with the subscriber URI. -/
structure SubscriptionInformation where
  topic : UUri
  subscriber : UUri
  deriving DecidableEq, Repr

/-- Embeds PublishRouteResolver::topic_matches_ingress_authority in
routing/publish_resolution.rs. -/
def topic_matches_ingress_authority (ingress_authority : String) (topic : UUri) : Bool :=
  topic.authority_name == "*" || topic.authority_name == ingress_authority

/-- Embeds PublishRouteResolver::derive_source_filter_for_topic in
routing/publish_resolution.rs (the tag/action logging arguments are
dropped; they only feed log lines). -/
def derive_source_filter_for_topic (ingress_authority egress_authority : String)
    (topic : UUri) : Option UUri :=
  if !topic_matches_ingress_authority ingress_authority topic then
    none
  else
    UUri.try_from_parts ingress_authority topic.ue_id
      topic.uentity_major_version topic.resource_id_u16

/-- Step function of the fold inside derive_source_filters: dedup-insert by
structural URI equality (the UriIdentityKey of a URI is the URI itself). -/
def dedup_insert_filter (ingress_authority egress_authority : String)
    (acc : List UUri) (s : SubscriptionInformation) : List UUri :=
  match derive_source_filter_for_topic ingress_authority egress_authority s.topic with
  | none => acc
  | some source_uri => if source_uri ∈ acc then acc else acc ++ [source_uri]

/-- Embeds PublishRouteResolver::derive_source_filters in
routing/publish_resolution.rs: folds the subscriber records, deriving a
source filter per applicable topic and deduplicating by URI identity. -/
def derive_source_filters (ingress_authority egress_authority : String)
    (subscribers : List SubscriptionInformation) : List UUri :=
  subscribers.foldl (dedup_insert_filter ingress_authority egress_authority) []

theorem dedup_insert_sub (ia ea : String) (acc : List UUri) (s : SubscriptionInformation) :
    acc ⊆ dedup_insert_filter ia ea acc s := by
  intro u hu
  unfold dedup_insert_filter
  cases h : derive_source_filter_for_topic ia ea s.topic with
  | none => exact hu
  | some v =>
      simp only
      split
      · exact hu
      · exact List.mem_append_left _ hu

theorem mem_dedup_insert (ia ea : String) (acc : List UUri) (s : SubscriptionInformation)
    (u : UUri) :
    u ∈ dedup_insert_filter ia ea acc s ↔
      u ∈ acc ∨ derive_source_filter_for_topic ia ea s.topic = some u := by
  unfold dedup_insert_filter
  cases h : derive_source_filter_for_topic ia ea s.topic with
  | none => simp
  | some v =>
      simp only
      split
      · rename_i hmem
        constructor
        · intro hu; exact Or.inl hu
        · rintro (hu | hu)
          · exact hu
          · injection hu with hv; exact hv ▸ hmem
      · constructor
        · intro hu
          rcases List.mem_append.mp hu with hu | hu
          · exact Or.inl hu
          · right
            simp only [List.mem_singleton] at hu
            exact hu ▸ rfl
        · rintro (hu | hu)
          · exact List.mem_append_left _ hu
          · injection hu with hv
            exact List.mem_append_right _ (by simp [hv])

theorem nodup_dedup_insert (ia ea : String) (acc : List UUri) (s : SubscriptionInformation)
    (h : acc.Nodup) : (dedup_insert_filter ia ea acc s).Nodup := by
  unfold dedup_insert_filter
  cases hd : derive_source_filter_for_topic ia ea s.topic with
  | none => exact h
  | some v =>
      simp only
      split
      · exact h
      · rename_i hmem
        simpa [List.nodup_append] using ⟨h, hmem⟩

theorem mem_derive_source_filters_foldl (ia ea : String)
    (subs : List SubscriptionInformation) (acc : List UUri) (u : UUri) :
    u ∈ subs.foldl (dedup_insert_filter ia ea) acc ↔
      u ∈ acc ∨ ∃ s ∈ subs, derive_source_filter_for_topic ia ea s.topic = some u := by
  induction subs generalizing acc with
  | nil => simp
  | cons s rest ih =>
      simp only [List.foldl_cons]
      rw [ih]
      rw [mem_dedup_insert]
      constructor
      · rintro ((hu | hu) | ⟨t, ht, hder⟩)
        · exact Or.inl hu
        · exact Or.inr ⟨s, by simp, hu⟩
        · exact Or.inr ⟨t, by simp [ht], hder⟩
      · rintro (hu | ⟨t, ht, hder⟩)
        · exact Or.inl (Or.inl hu)
        · rcases List.mem_cons.mp ht with h | h
          · exact Or.inl (Or.inr (h ▸ hder))
          · exact Or.inr ⟨t, h, hder⟩

theorem nodup_derive_source_filters_foldl (ia ea : String)
    (subs : List SubscriptionInformation) (acc : List UUri) (h : acc.Nodup) :
    (subs.foldl (dedup_insert_filter ia ea) acc).Nodup := by
  induction subs generalizing acc with
  | nil => exact h
  | cons s rest ih =>
      simp only [List.foldl_cons]
      exact ih _ (nodup_dedup_insert ia ea acc s h)

/-! Association lists with decidable keys model the tokio-guarded HashMaps
of the pool and registry: find, update and erase act on the first matching
key, and reachable states keep keys unique as a HashMap does. -/

section Assoc

variable {κ : Type} {β : Type} [DecidableEq κ]

/-- Lookup of the first entry with the given key. -/
def assocFind (l : List (κ × β)) (k : κ) : Option β :=
  match l with
  | [] => none
  | (k', v) :: rest => if k' = k then some v else assocFind rest k

/-- Replacement of the value at the first entry with the given key. -/
def assocUpdate (l : List (κ × β)) (k : κ) (v : β) : List (κ × β) :=
  match l with
  | [] => []
  | (k', v') :: rest =>
      if k' = k then (k', v) :: rest else (k', v') :: assocUpdate rest k v

/-- Removal of the first entry with the given key. -/
def assocErase (l : List (κ × β)) (k : κ) : List (κ × β) :=
  match l with
  | [] => []
  | (k', v') :: rest => if k' = k then rest else (k', v') :: assocErase rest k

theorem assocFind_none_iff (l : List (κ × β)) (k : κ) :
    assocFind l k = none ↔ ∀ p ∈ l, p.1 ≠ k := by
  induction l with
  | nil => simp [assocFind]
  | cons p rest ih =>
      obtain ⟨k', v⟩ := p
      by_cases h : k' = k <;> simp [assocFind, h, ih]

theorem assocFind_append_right (l : List (κ × β)) (k : κ) (v : β)
    (h : assocFind l k = none) : assocFind (l ++ [(k, v)]) k = some v := by
  induction l with
  | nil => simp [assocFind]
  | cons p rest ih =>
      obtain ⟨k', v'⟩ := p
      by_cases hk : k' = k
      · simp [assocFind, hk] at h
      · simp only [assocFind, List.cons_append, if_neg hk] at h ⊢
        exact ih h

theorem assocUpdate_append_right (l : List (κ × β)) (k : κ) (v w : β)
    (h : assocFind l k = none) :
    assocUpdate (l ++ [(k, v)]) k w = l ++ [(k, w)] := by
  induction l with
  | nil => simp [assocUpdate]
  | cons p rest ih =>
      obtain ⟨k', v'⟩ := p
      by_cases hk : k' = k
      · simp [assocFind, hk] at h
      · simp only [assocFind, if_neg hk] at h
        simp [assocUpdate, hk, ih h]

theorem assocErase_append_right (l : List (κ × β)) (k : κ) (v : β)
    (h : assocFind l k = none) :
    assocErase (l ++ [(k, v)]) k = l := by
  induction l with
  | nil => simp [assocErase]
  | cons p rest ih =>
      obtain ⟨k', v'⟩ := p
      by_cases hk : k' = k
      · simp [assocFind, hk] at h
      · simp only [assocFind, if_neg hk] at h
        simp [assocErase, hk, ih h]

theorem assocFind_update_self (l : List (κ × β)) (k : κ) (v w : β)
    (h : assocFind l k = some v) :
    assocFind (assocUpdate l k w) k = some w := by
  induction l with
  | nil => simp [assocFind] at h
  | cons p rest ih =>
      obtain ⟨k', v'⟩ := p
      by_cases hk : k' = k
      · simp [assocUpdate, assocFind, hk]
      · simp only [assocFind, if_neg hk] at h
        simp [assocUpdate, assocFind, hk, ih h]

theorem assocFind_erase_self (l : List (κ × β)) (k : κ)
    (hnd : (l.map Prod.fst).Nodup) : assocFind (assocErase l k) k = none := by
  induction l with
  | nil => simp [assocErase, assocFind]
  | cons p rest ih =>
      obtain ⟨k', v'⟩ := p
      simp only [List.map_cons, List.nodup_cons] at hnd
      by_cases hk : k' = k
      · simp only [assocErase, if_pos hk]
        rw [assocFind_none_iff]
        intro q hq hqk
        exact hnd.1 (hk ▸ hqk ▸ List.mem_map_of_mem Prod.fst hq)
      · simp [assocErase, assocFind, hk, ih hnd.2]

theorem mem_assocUpdate (l : List (κ × β)) (k : κ) (v : β) (p : κ × β)
    (h : p ∈ assocUpdate l k v) : p = (k, v) ∨ p ∈ l := by
  induction l with
  | nil => simp [assocUpdate] at h
  | cons q rest ih =>
      obtain ⟨k', v'⟩ := q
      by_cases hk : k' = k
      · simp only [assocUpdate, if_pos hk] at h
        rcases List.mem_cons.mp h with h | h
        · exact Or.inl (by rw [h, hk])
        · exact Or.inr (List.mem_cons_of_mem _ h)
      · simp only [assocUpdate, if_neg hk] at h
        rcases List.mem_cons.mp h with h | h
        · exact Or.inr (h ▸ List.mem_cons_self _ _)
        · rcases ih h with h | h
          · exact Or.inl h
          · exact Or.inr (List.mem_cons_of_mem _ h)

theorem mem_assocErase (l : List (κ × β)) (k : κ) (p : κ × β)
    (h : p ∈ assocErase l k) : p ∈ l := by
  induction l with
  | nil => simp [assocErase] at h
  | cons q rest ih =>
      obtain ⟨k', v'⟩ := q
      by_cases hk : k' = k
      · simp only [assocErase, if_pos hk] at h
        exact List.mem_cons_of_mem _ h
      · simp only [assocErase, if_neg hk] at h
        rcases List.mem_cons.mp h with h | h
        · exact h ▸ List.mem_cons_self _ _
        · exact List.mem_cons_of_mem _ (ih h)

theorem length_assocUpdate (l : List (κ × β)) (k : κ) (v : β) :
    (assocUpdate l k v).length = l.length := by
  induction l with
  | nil => rfl
  | cons q rest ih =>
      obtain ⟨k', v'⟩ := q
      by_cases hk : k' = k <;> simp [assocUpdate, hk, ih]

end Assoc

/-! Transport handles, endpoints and the control-plane route table. -/

/-- Object identity of a shared transport handle; embeds the pointer-equality
semantics of ComparableTransport (ustreamer.rs) and of the
TransportIdentityKey cited by control_plane/route_table.rs: two keys are
equal iff they wrap the same underlying transport instance. -/
abbrev TransportId := Nat

/-- Embeds the public Endpoint of the up-streamer crate (api/endpoint.rs
build_endpoint): a name, an authority and a shared transport handle. -/
structure Endpoint where
  name : String
  authority : String
  transport : TransportId
  deriving DecidableEq, Repr

/-- Embeds ForwardingRule from control_plane/route_table.rs: the route
identity tuple (in_authority, out_authority, in_transport, out_transport). -/
abbrev ForwardingRule := String × String × TransportId × TransportId

/-- Embeds build_forwarding_rule in control_plane/route_table.rs. -/
def build_forwarding_rule (i o : Endpoint) : ForwardingRule :=
  (i.authority, o.authority, i.transport, o.transport)

/-- Embeds insert_forwarding_rule in control_plane/route_lifecycle.rs:
HashSet insert, returning whether the rule was newly added together with
the updated set. -/
def insert_forwarding_rule (rules : List ForwardingRule) (r : ForwardingRule) :
    Bool × List ForwardingRule :=
  if r ∈ rules then (false, rules) else (true, rules ++ [r])

/-- Embeds remove_forwarding_rule in control_plane/route_lifecycle.rs:
HashSet remove, returning whether the rule was present together with the
updated set. -/
def remove_forwarding_rule (rules : List ForwardingRule) (r : ForwardingRule) :
    Bool × List ForwardingRule :=
  (decide (r ∈ rules), rules.filter (fun x => x ≠ r))

/-! The transport capability as an environment plus a call trace. -/

/-- Filter pair passed to register_listener / unregister_listener: a source
filter and an optional sink filter. -/
abbrev FilterPair := UUri × Option UUri

/-- Identity of one ForwardingListener instance (Arc identity); fresh
instances receive fresh identifiers. -/
abbrev ListenerId := Nat

/-- Identity of one broadcast channel; a cloned sender carries the channel
identity of the channel it was cloned from. -/
abbrev ChannelId := Nat

/-- Environment deciding the outcome of each transport listener call:
regOk answers register_listener and unregOk answers unregister_listener
for a given transport handle and filter pair. -/
structure TransportEnv where
  regOk : TransportId → FilterPair → Bool
  unregOk : TransportId → FilterPair → Bool

/-- Record of one transport listener call performed during an execution,
with the transport handle, the filter pair, the listener instance and the
outcome the transport returned. -/
inductive TransportCall where
  | registerListener (t : TransportId) (pair : FilterPair) (listener : ListenerId) (ok : Bool)
  | unregisterListener (t : TransportId) (pair : FilterPair) (listener : ListenerId) (ok : Bool)
  deriving DecidableEq, Repr

/-! The egress pool (data_plane/egress_pool.rs). -/

/-- Value stored per egress transport in TransportForwarders: the refcount,
the worker identity and the broadcast queue sender. -/
structure EgressEntry where
  active : Nat
  worker : Nat
  sender : ChannelId
  deriving DecidableEq, Repr

/-- State of TransportForwarders (egress_pool.rs) plus fresh-identity
counters for the workers and broadcast channels it creates. -/
structure PoolState where
  message_queue_size : Nat
  forwarders : List (TransportId × EgressEntry)
  nextWorker : Nat
  nextChannel : Nat
  deriving DecidableEq, Repr

/-- Embeds TransportForwarders::insert in egress_pool.rs: an existing entry
has its refcount incremented and its sender cloned; otherwise a fresh
broadcast channel and worker are created, stored with refcount 0 + 1, and
the fresh sender is returned. -/
def TransportForwarders.insert (st : PoolState) (out_transport : TransportId) :
    PoolState × ChannelId :=
  match assocFind st.forwarders out_transport with
  | some e =>
      let e' := { e with active := e.active + 1 }
      ({ st with forwarders := assocUpdate st.forwarders out_transport e' }, e'.sender)
  | none =>
      let e' : EgressEntry :=
        { active := 0 + 1, worker := st.nextWorker, sender := st.nextChannel }
      ({ st with
          forwarders := st.forwarders ++ [(out_transport, e')]
          nextWorker := st.nextWorker + 1
          nextChannel := st.nextChannel + 1 }, e'.sender)

/-- Embeds TransportForwarders::remove in egress_pool.rs: an absent entry
is only logged; a present entry has its refcount decremented and is dropped
when the count reaches zero. -/
def TransportForwarders.remove (st : PoolState) (out_transport : TransportId) : PoolState :=
  match assocFind st.forwarders out_transport with
  | none => st
  | some e =>
      let active' := e.active - 1
      if active' = 0 then
        { st with forwarders := assocErase st.forwarders out_transport }
      else
        { st with
            forwarders := assocUpdate st.forwarders out_transport { e with active := active' } }

/-- Refcount read off the pool, zero when the transport has no entry. -/
def poolRefcount (st : PoolState) (t : TransportId) : Nat :=
  ((assocFind st.forwarders t).map EgressEntry.active).getD 0

/-! The ingress registry (data_plane/ingress_registry.rs). -/

/-- Embeds ForwardingListener::new: a listener instance bound to one
forwarding identifier and one broadcast queue sender, identified by Arc
identity. -/
structure ForwardingListener where
  id : ListenerId
  forwarding_id : String
  sender : ChannelId
  deriving DecidableEq, Repr

/-- Embeds ForwardingListenerError in ingress_registry.rs. -/
inductive ForwardingListenerError where
  | failToRegisterNotificationRequestResponseListener
  | failToRegisterPublishListener (uri : UUri)
  deriving DecidableEq, Repr

/-- Key of the ingress registry map: transport identity, in authority and
out authority. -/
abbrev ListenerKey := TransportId × String × String

/-- State of ForwardingListeners (ingress_registry.rs) plus the fresh
identity counter for listener instances it creates. -/
structure RegistryState where
  listeners : List (ListenerKey × (Nat × ForwardingListener))
  nextListener : ListenerId
  deriving DecidableEq, Repr

/-- Modelled from the spec: the external subscription_cache crate lookup
used by ForwardingListeners through resolve_subscribers_for_authority
(routing/subscription_directory.rs lookup_route_subscribers):
fetch_cache_entry_with_wildcard returns the subscribers whose URI matches
the egress authority, with wildcard-aware matching where the literal star
matches any authority; an empty result is returned, never an error. -/
def lookup_route_subscribers (cache : List SubscriptionInformation)
    (out_authority : String) : List SubscriptionInformation :=
  cache.filter (fun s =>
    s.subscriber.authority_name == out_authority
      || s.subscriber.authority_name == "*"
      || out_authority == "*")

/-- Dedup-inserting append used for the uuris_to_backpedal HashSet in
ForwardingListeners::insert. -/
def backpedalInsert (s : List FilterPair) (p : FilterPair) : List FilterPair :=
  if p ∈ s then s else s ++ [p]

/-- Rollback loop body of ForwardingListeners::insert: every pair of the
backpedal set is unregistered on the in transport (a failed unregister is
only logged). -/
def rollbackCalls (env : TransportEnv) (t : TransportId) (ℓ : ListenerId)
    (backpedal : List FilterPair) : List TransportCall :=
  backpedal.map (fun p => TransportCall.unregisterListener t p ℓ (env.unregOk t p))

/-- Publish-filter registration loop of ForwardingListeners::insert: each
derived source filter is registered with sink none; on success the pair
joins the backpedal set, on failure everything in the backpedal set is
unregistered and the failing source URI is reported. Returns the call
trace, the final backpedal set and the failing URI when one exists. -/
def registerPublishFilters (env : TransportEnv) (t : TransportId) (ℓ : ListenerId)
    (backpedal : List FilterPair) :
    List UUri → List TransportCall × List FilterPair × Option UUri
  | [] => ([], backpedal, none)
  | source_uri :: rest =>
      let ok := env.regOk t (source_uri, none)
      let call := TransportCall.registerListener t (source_uri, none) ℓ ok
      if ok then
        let r := registerPublishFilters env t ℓ (backpedalInsert backpedal (source_uri, none)) rest
        (call :: r.1, r.2)
      else
        (call :: rollbackCalls env t ℓ backpedal, backpedal, some source_uri)

/-- Result of ForwardingListeners::insert: the updated registry state, the
trace of transport calls and the returned value (Ok none for an already
present route, Ok some listener otherwise) or error. -/
structure RegistryInsertOutcome where
  state : RegistryState
  calls : List TransportCall
  result : Except ForwardingListenerError (Option ForwardingListener)

/-- Embeds ForwardingListeners::insert in ingress_registry.rs. An existing
entry only has its refcount incremented. Otherwise a fresh listener is
created; the request/response wildcard pair is put into the backpedal set
and registered; on its failure the backpedal set is unregistered and the
request/response error returned. The publish source filters derived from
the subscription cache are then registered one by one with rollback on
failure; on full success the entry is stored with refcount 1. -/
def ForwardingListeners.insert (env : TransportEnv) (st : RegistryState)
    (in_transport : TransportId) (in_authority out_authority : String)
    (forwarding_id : String) (out_sender : ChannelId)
    (cache : List SubscriptionInformation) : RegistryInsertOutcome :=
  let key : ListenerKey := (in_transport, in_authority, out_authority)
  match assocFind st.listeners key with
  | some (active, forwarding_listener) =>
      let active' := active + 1
      let st' := { st with listeners := assocUpdate st.listeners key (active', forwarding_listener) }
      if active' > 1 then
        ⟨st', [], Except.ok none⟩
      else
        ⟨st', [], Except.ok (some forwarding_listener)⟩
  | none =>
      let forwarding_listener : ForwardingListener :=
        { id := st.nextListener, forwarding_id := forwarding_id, sender := out_sender }
      let st1 := { st with nextListener := st.nextListener + 1 }
      let request_source_filter := uauthority_to_uuri in_authority
      let request_sink_filter := uauthority_to_uuri out_authority
      let rrPair : FilterPair := (request_source_filter, some request_sink_filter)
      let backpedal0 := backpedalInsert [] rrPair
      let rrOk := env.regOk in_transport rrPair
      let rrCall := TransportCall.registerListener in_transport rrPair forwarding_listener.id rrOk
      if rrOk then
        let subscribers := lookup_route_subscribers cache out_authority
        let publish_source_filters :=
          derive_source_filters in_authority out_authority subscribers
        let r := registerPublishFilters env in_transport forwarding_listener.id
          backpedal0 publish_source_filters
        match r.2.2 with
        | some source_uri =>
            ⟨st1, rrCall :: r.1,
              Except.error (ForwardingListenerError.failToRegisterPublishListener source_uri)⟩
        | none =>
            ⟨{ st1 with listeners := st1.listeners ++ [(key, (1, forwarding_listener))] },
              rrCall :: r.1, Except.ok (some forwarding_listener)⟩
      else
        ⟨st1, rrCall :: rollbackCalls env in_transport forwarding_listener.id backpedal0,
          Except.error ForwardingListenerError.failToRegisterNotificationRequestResponseListener⟩

/-- Embeds ForwardingListeners::remove in ingress_registry.rs: an absent
key is only logged; otherwise the refcount is decremented and, when it
reaches zero, the entry is dropped and the request/response pair plus each
publish source filter recomputed from the current subscription cache are
unregistered (failed unregisters are only logged). -/
def ForwardingListeners.remove (env : TransportEnv) (st : RegistryState)
    (in_transport : TransportId) (in_authority out_authority : String)
    (cache : List SubscriptionInformation) : RegistryState × List TransportCall :=
  let key : ListenerKey := (in_transport, in_authority, out_authority)
  match assocFind st.listeners key with
  | none => (st, [])
  | some (active, forwarding_listener) =>
      let active' := active - 1
      if active' = 0 then
        let st' := { st with listeners := assocErase st.listeners key }
        let request_source_filter := uauthority_to_uuri in_authority
        let request_sink_filter := uauthority_to_uuri out_authority
        let rrPair : FilterPair := (request_source_filter, some request_sink_filter)
        let rrCall := TransportCall.unregisterListener in_transport rrPair
          forwarding_listener.id (env.unregOk in_transport rrPair)
        let subscribers := lookup_route_subscribers cache out_authority
        let publish_source_filters :=
          derive_source_filters in_authority out_authority subscribers
        let pcalls := publish_source_filters.map (fun source_uri =>
          TransportCall.unregisterListener in_transport (source_uri, none)
            forwarding_listener.id (env.unregOk in_transport (source_uri, none)))
        (st', rrCall :: pcalls)
      else
        ({ st with listeners := assocUpdate st.listeners key (active', forwarding_listener) }, [])

/-! The streamer facade (ustreamer.rs). -/

/-- Status codes of up_rust UStatus that the streamer surfaces (the
descriptive message payloads are elided; every claim is about the code). -/
inductive UCode where
  | INVALID_ARGUMENT
  | ALREADY_EXISTS
  | NOT_FOUND
  deriving DecidableEq, Repr

/-- State owned by UStreamer: the route table, the egress pool, the ingress
registry and the boot-time subscription cache. -/
structure StreamerState where
  registered_forwarding_rules : List ForwardingRule
  transport_forwarders : PoolState
  forwarding_listeners : RegistryState
  subscription_cache : List SubscriptionInformation
  deriving DecidableEq, Repr

/-- Embeds UStreamer::forwarding_id (ustreamer.rs): the route label built
from both endpoint names and authorities (Debug-quoted). -/
def forwarding_id (i o : Endpoint) : String :=
  "[in.name: " ++ i.name ++ ", in.authority: \"" ++ i.authority ++
    "\" ; out.name: " ++ o.name ++ ", out.authority: \"" ++ o.authority ++ "\"]"

/-- Outcome of add_forwarding_rule / delete_forwarding_rule: the new
streamer state, the transport listener calls performed and the result. -/
structure StreamerOutcome where
  state : StreamerState
  calls : List TransportCall
  result : Except UCode Unit

/-- Embeds UStreamer::add_forwarding_rule (ustreamer.rs): same-authority
requests fail InvalidArgument; a duplicate route key fails AlreadyExists;
otherwise the egress pool entry is acquired, the ingress listeners are
registered, and a registration failure rolls back the route table and the
pool entry before returning InvalidArgument. -/
def add_forwarding_rule (env : TransportEnv) (st : StreamerState) (i o : Endpoint) :
    StreamerOutcome :=
  if i.authority = o.authority then
    ⟨st, [], Except.error UCode.INVALID_ARGUMENT⟩
  else
    let rule := build_forwarding_rule i o
    let ins := insert_forwarding_rule st.registered_forwarding_rules rule
    if ins.1 = false then
      ⟨st, [], Except.error UCode.ALREADY_EXISTS⟩
    else
      let st1 := { st with registered_forwarding_rules := ins.2 }
      let poolIns := TransportForwarders.insert st1.transport_forwarders o.transport
      let st2 := { st1 with transport_forwarders := poolIns.1 }
      let out_sender := poolIns.2
      let r := ForwardingListeners.insert env st2.forwarding_listeners
        i.transport i.authority o.authority (forwarding_id i o) out_sender
        st2.subscription_cache
      match r.result with
      | Except.error _e =>
          let rem := remove_forwarding_rule st2.registered_forwarding_rules rule
          let pool' := TransportForwarders.remove st2.transport_forwarders o.transport
          ⟨{ st2 with
              registered_forwarding_rules := rem.2
              transport_forwarders := pool'
              forwarding_listeners := r.state },
            r.calls, Except.error UCode.INVALID_ARGUMENT⟩
      | Except.ok _ =>
          ⟨{ st2 with forwarding_listeners := r.state }, r.calls, Except.ok ()⟩

/-- Embeds UStreamer::delete_forwarding_rule (ustreamer.rs): same-authority
requests fail InvalidArgument; a missing route key fails NotFound;
otherwise the pool entry and the ingress listeners are released. -/
def delete_forwarding_rule (env : TransportEnv) (st : StreamerState) (i o : Endpoint) :
    StreamerOutcome :=
  if i.authority = o.authority then
    ⟨st, [], Except.error UCode.INVALID_ARGUMENT⟩
  else
    let rule := build_forwarding_rule i o
    let rem := remove_forwarding_rule st.registered_forwarding_rules rule
    if rem.1 = false then
      ⟨st, [], Except.error UCode.NOT_FOUND⟩
    else
      let st1 := { st with registered_forwarding_rules := rem.2 }
      let pool' := TransportForwarders.remove st1.transport_forwarders o.transport
      let r := ForwardingListeners.remove env st1.forwarding_listeners
        i.transport i.authority o.authority st1.subscription_cache
      ⟨{ st1 with transport_forwarders := pool', forwarding_listeners := r.1 },
        r.2, Except.ok ()⟩

/-! Construction bootstrap (ustreamer.rs UStreamer::new together with
runtime/subscription_runtime.rs fetch_subscriptions). -/

/-- Fetch request issued at construction; only the subscriber URI matters
to the streamer (the paging field stays None). -/
structure FetchSubscriptionsRequest where
  subscriber : UUri
  deriving DecidableEq, Repr

/-- Embeds the subscriber URI literal built inside UStreamer::new:
authority star, ue_id 0x0000FFFF, major version 0xFF, resource 0xFFFF. -/
def new_bootstrap_subscriber_uuri : UUri :=
  { authority_name := "*"
    ue_id := 0x0000FFFF
    ue_version_major := 0xFF
    resource_id := 0xFFFF }

/-- Embeds UStreamer::new (ustreamer.rs): one blocking fetch_subscriptions
call for the bootstrap subscriber, whose response seeds the subscription
cache; the route table, pool and registry start empty. Returns the state
with the trace of fetch requests issued. -/
def UStreamer.new (message_queue_size : Nat)
    (provider : FetchSubscriptionsRequest → List SubscriptionInformation) :
    StreamerState × List FetchSubscriptionsRequest :=
  let fetch_request : FetchSubscriptionsRequest := { subscriber := new_bootstrap_subscriber_uuri }
  let subscriptions := provider fetch_request
  ({ registered_forwarding_rules := []
     transport_forwarders :=
       { message_queue_size := message_queue_size
         forwarders := []
         nextWorker := 0
         nextChannel := 0 }
     forwarding_listeners := { listeners := [], nextListener := 0 }
     subscription_cache := subscriptions }, [fetch_request])

/-! The egress worker dispatch loop (data_plane/egress_worker.rs). -/

/-- Outcome of one broadcast receive as seen by the dispatch loop: a
message, a lag report with the skipped count, or channel closure. Message
contents are opaque to the loop and abstracted to a numeric identity. -/
inductive RecvOutcome where
  | ok (msg : Nat)
  | lagged (skipped : Nat)
  | closed
  deriving DecidableEq, Repr

/-- Observable event of the dispatch loop: an attempted send with the
transport outcome, or a logged lag report. -/
inductive WorkerEvent where
  | sendAttempt (msg : Nat) (ok : Bool)
  | logLagged (skipped : Nat)
  deriving DecidableEq, Repr

/-- Embeds EgressRouteWorker::route_dispatch_loop (egress_worker.rs) over a
finite trace of receiver outcomes: each received message is sent on the
out transport (failure only logged), lag is only logged, and the loop
breaks at Closed. Returns the event trace and whether the loop exited. -/
def route_dispatch_loop (sendOk : Nat → Bool) :
    List RecvOutcome → List WorkerEvent × Bool
  | [] => ([], false)
  | RecvOutcome.ok msg :: rest =>
      let r := route_dispatch_loop sendOk rest
      (WorkerEvent.sendAttempt msg (sendOk msg) :: r.1, r.2)
  | RecvOutcome.lagged skipped :: rest =>
      let r := route_dispatch_loop sendOk rest
      (WorkerEvent.logLagged skipped :: r.1, r.2)
  | RecvOutcome.closed :: _ => ([], true)

/-- Event trace the dispatch loop is specified to produce: one send attempt
per message and one lag log per lag report, over the receive outcomes that
precede the first channel closure. -/
def dispatch_events_spec (sendOk : Nat → Bool) (outcomes : List RecvOutcome) :
    List WorkerEvent :=
  (outcomes.takeWhile (fun o => o ≠ RecvOutcome.closed)).filterMap (fun o =>
    match o with
    | RecvOutcome.ok msg => some (WorkerEvent.sendAttempt msg (sendOk msg))
    | RecvOutcome.lagged skipped => some (WorkerEvent.logLagged skipped)
    | RecvOutcome.closed => none)

/-! Helper lemmas about the streamer facade branches. -/

theorem add_same_authority (env : TransportEnv) (st : StreamerState) (i o : Endpoint)
    (h : i.authority = o.authority) :
    add_forwarding_rule env st i o = ⟨st, [], Except.error UCode.INVALID_ARGUMENT⟩ := by
  simp [add_forwarding_rule, h]

theorem delete_same_authority (env : TransportEnv) (st : StreamerState) (i o : Endpoint)
    (h : i.authority = o.authority) :
    delete_forwarding_rule env st i o = ⟨st, [], Except.error UCode.INVALID_ARGUMENT⟩ := by
  simp [delete_forwarding_rule, h]

theorem add_duplicate (env : TransportEnv) (st : StreamerState) (i o : Endpoint)
    (h1 : ¬ i.authority = o.authority)
    (h2 : build_forwarding_rule i o ∈ st.registered_forwarding_rules) :
    add_forwarding_rule env st i o = ⟨st, [], Except.error UCode.ALREADY_EXISTS⟩ := by
  simp [add_forwarding_rule, h1, insert_forwarding_rule, h2]

theorem delete_missing (env : TransportEnv) (st : StreamerState) (i o : Endpoint)
    (h1 : ¬ i.authority = o.authority)
    (h2 : build_forwarding_rule i o ∉ st.registered_forwarding_rules) :
    delete_forwarding_rule env st i o = ⟨st, [], Except.error UCode.NOT_FOUND⟩ := by
  simp [delete_forwarding_rule, h1, remove_forwarding_rule, h2]

/-- Registry insert performed by add_forwarding_rule once past its guards. -/
def addRegistryInsert (env : TransportEnv) (st : StreamerState) (i o : Endpoint) :
    RegistryInsertOutcome :=
  ForwardingListeners.insert env st.forwarding_listeners i.transport i.authority
    o.authority (forwarding_id i o)
    (TransportForwarders.insert st.transport_forwarders o.transport).2
    st.subscription_cache

theorem add_new_ok (env : TransportEnv) (st : StreamerState) (i o : Endpoint)
    (h1 : ¬ i.authority = o.authority)
    (h2 : build_forwarding_rule i o ∉ st.registered_forwarding_rules)
    (v : Option ForwardingListener)
    (hr : (addRegistryInsert env st i o).result = Except.ok v) :
    add_forwarding_rule env st i o =
      ⟨{ registered_forwarding_rules :=
            st.registered_forwarding_rules ++ [build_forwarding_rule i o]
         transport_forwarders :=
            (TransportForwarders.insert st.transport_forwarders o.transport).1
         forwarding_listeners := (addRegistryInsert env st i o).state
         subscription_cache := st.subscription_cache },
        (addRegistryInsert env st i o).calls, Except.ok ()⟩ := by
  unfold addRegistryInsert at hr
  simp only [add_forwarding_rule, if_neg h1, insert_forwarding_rule, if_neg h2,
    Bool.true_eq_false, if_false]
  rw [hr]
  rfl

theorem add_new_err (env : TransportEnv) (st : StreamerState) (i o : Endpoint)
    (h1 : ¬ i.authority = o.authority)
    (h2 : build_forwarding_rule i o ∉ st.registered_forwarding_rules)
    (e : ForwardingListenerError)
    (hr : (addRegistryInsert env st i o).result = Except.error e) :
    add_forwarding_rule env st i o =
      ⟨{ registered_forwarding_rules :=
            (st.registered_forwarding_rules ++ [build_forwarding_rule i o]).filter
              (fun x => x ≠ build_forwarding_rule i o)
         transport_forwarders :=
            TransportForwarders.remove
              (TransportForwarders.insert st.transport_forwarders o.transport).1
              o.transport
         forwarding_listeners := (addRegistryInsert env st i o).state
         subscription_cache := st.subscription_cache },
        (addRegistryInsert env st i o).calls, Except.error UCode.INVALID_ARGUMENT⟩ := by
  unfold addRegistryInsert at hr
  simp only [add_forwarding_rule, if_neg h1, insert_forwarding_rule, if_neg h2,
    Bool.true_eq_false, if_false, remove_forwarding_rule]
  rw [hr]
  rfl

theorem delete_present (env : TransportEnv) (st : StreamerState) (i o : Endpoint)
    (h1 : ¬ i.authority = o.authority)
    (h2 : build_forwarding_rule i o ∈ st.registered_forwarding_rules) :
    delete_forwarding_rule env st i o =
      ⟨{ registered_forwarding_rules :=
            st.registered_forwarding_rules.filter (fun x => x ≠ build_forwarding_rule i o)
         transport_forwarders :=
            TransportForwarders.remove st.transport_forwarders o.transport
         forwarding_listeners :=
            (ForwardingListeners.remove env st.forwarding_listeners i.transport
              i.authority o.authority st.subscription_cache).1
         subscription_cache := st.subscription_cache },
        (ForwardingListeners.remove env st.forwarding_listeners i.transport
          i.authority o.authority st.subscription_cache).2, Except.ok ()⟩ := by
  simp [delete_forwarding_rule, h1, remove_forwarding_rule, h2]

theorem add_subscription_cache_eq (env : TransportEnv) (st : StreamerState) (i o : Endpoint) :
    (add_forwarding_rule env st i o).state.subscription_cache = st.subscription_cache := by
  by_cases h1 : i.authority = o.authority
  · rw [add_same_authority env st i o h1]
  · by_cases h2 : build_forwarding_rule i o ∈ st.registered_forwarding_rules
    · rw [add_duplicate env st i o h1 h2]
    · cases hr : (addRegistryInsert env st i o).result with
      | ok v => rw [add_new_ok env st i o h1 h2 v hr]
      | error e => rw [add_new_err env st i o h1 h2 e hr]

theorem delete_subscription_cache_eq (env : TransportEnv) (st : StreamerState)
    (i o : Endpoint) :
    (delete_forwarding_rule env st i o).state.subscription_cache = st.subscription_cache := by
  by_cases h1 : i.authority = o.authority
  · rw [delete_same_authority env st i o h1]
  · by_cases h2 : build_forwarding_rule i o ∈ st.registered_forwarding_rules
    · rw [delete_present env st i o h1 h2]
    · rw [delete_missing env st i o h1 h2]

theorem derive_source_filter_for_topic_char (ia ea : String) (topic : UUri) (u : UUri)
    (h1 : topic.ue_id < 2 ^ 32) (h2 : topic.ue_version_major < 2 ^ 8)
    (h3 : topic.resource_id < 2 ^ 16) :
    derive_source_filter_for_topic ia ea topic = some u ↔
      ((topic.authority_name = ia ∨ topic.authority_name = "*") ∧ ia.length ≤ 128 ∧
        u = { authority_name := ia, ue_id := topic.ue_id,
              ue_version_major := topic.ue_version_major,
              resource_id := topic.resource_id }) := by
  have e1 : topic.uentity_major_version = topic.ue_version_major := Nat.mod_eq_of_lt h2
  have e2 : topic.resource_id_u16 = topic.resource_id := Nat.mod_eq_of_lt h3
  have m1 : topic.ue_id % 4294967296 = topic.ue_id := Nat.mod_eq_of_lt (by simpa using h1)
  have m2 : topic.ue_version_major % 256 = topic.ue_version_major :=
    Nat.mod_eq_of_lt (by simpa using h2)
  have m3 : topic.resource_id % 65536 = topic.resource_id :=
    Nat.mod_eq_of_lt (by simpa using h3)
  unfold derive_source_filter_for_topic topic_matches_ingress_authority UUri.try_from_parts
  rw [e1, e2]
  by_cases hm : topic.authority_name = "*" ∨ topic.authority_name = ia
  · have hb : (topic.authority_name == "*" || topic.authority_name == ia) = true := by
      rcases hm with hm | hm <;> simp [hm]
    rw [hb]
    by_cases hlen : ia.length ≤ 128
    · simp [hlen, m1, m2, m3, eq_comm]
      tauto
    · simp [hlen]
  · have hb : (topic.authority_name == "*" || topic.authority_name == ia) = false := by
      push_neg at hm
      simp [hm.1, hm.2]
    rw [hb]
    push_neg at hm
    simp [hm.1, hm.2]

theorem mem_backpedalInsert_self (s : List FilterPair) (p : FilterPair) :
    p ∈ backpedalInsert s p := by
  unfold backpedalInsert
  split
  · assumption
  · simp

theorem mem_backpedalInsert_of_mem (s : List FilterPair) (p q : FilterPair)
    (h : q ∈ s) : q ∈ backpedalInsert s p := by
  unfold backpedalInsert
  split
  · exact h
  · exact List.mem_append_left _ h

theorem mem_backpedalInsert (s : List FilterPair) (p q : FilterPair)
    (h : q ∈ backpedalInsert s p) : q ∈ s ∨ q = p := by
  unfold backpedalInsert at h
  split at h
  · exact Or.inl h
  · rcases List.mem_append.mp h with h | h
    · exact Or.inl h
    · exact Or.inr (by simpa using h)

theorem registerPublishFilters_all_ok (env : TransportEnv) (tid : TransportId)
    (ℓ : ListenerId) (hok : ∀ p, env.regOk tid p = true) :
    ∀ (fs : List UUri) (bp : List FilterPair),
      (registerPublishFilters env tid ℓ bp fs).2.2 = none := by
  intro fs
  induction fs with
  | nil => intro bp; rfl
  | cons v rest ih =>
      intro bp
      simp only [registerPublishFilters, hok (v, none), if_true]
      exact ih (backpedalInsert bp (v, none))

theorem registerPublishFilters_none_calls (env : TransportEnv) (tid : TransportId)
    (ℓ : ListenerId) :
    ∀ (fs : List UUri) (bp : List FilterPair),
      (registerPublishFilters env tid ℓ bp fs).2.2 = none →
      ∀ c ∈ (registerPublishFilters env tid ℓ bp fs).1,
        ∃ v, c = TransportCall.registerListener tid (v, none) ℓ true := by
  intro fs
  induction fs with
  | nil =>
      intro bp _ c hc
      simp [registerPublishFilters] at hc
  | cons v rest ih =>
      intro bp hnone c hc
      by_cases hok : env.regOk tid (v, none)
      · simp only [registerPublishFilters, hok, if_true] at hnone hc
        rcases List.mem_cons.mp hc with hc | hc
        · exact ⟨v, hc⟩
        · exact ih (backpedalInsert bp (v, none)) hnone c hc
      · simp only [registerPublishFilters, hok, if_false, Bool.false_eq_true] at hnone
        exact absurd hnone (by simp)

theorem registerPublishFilters_fail_structure (env : TransportEnv) (tid : TransportId)
    (ℓ : ListenerId) :
    ∀ (fs : List UUri) (bp : List FilterPair) (u : UUri),
      (registerPublishFilters env tid ℓ bp fs).2.2 = some u →
      ∃ regs bpF,
        (registerPublishFilters env tid ℓ bp fs).1 = regs ++ rollbackCalls env tid ℓ bpF ∧
        (∀ c ∈ regs, ∃ v ok, c = TransportCall.registerListener tid (v, none) ℓ ok) ∧
        (∀ p ∈ bp, p ∈ bpF) ∧
        (∀ p ∈ bpF, p ∈ bp ∨ TransportCall.registerListener tid p ℓ true ∈ regs) ∧
        (∀ v, TransportCall.registerListener tid (v, none) ℓ true ∈ regs → (v, none) ∈ bpF) := by
  intro fs
  induction fs with
  | nil =>
      intro bp u hu
      simp [registerPublishFilters] at hu
  | cons v rest ih =>
      intro bp u hu
      by_cases hok : env.regOk tid (v, none)
      · simp only [registerPublishFilters, hok, if_true] at hu ⊢
        obtain ⟨regs, bpF, hcalls, hregs, hsub, hback, hsucc⟩ :=
          ih (backpedalInsert bp (v, none)) u hu
        refine ⟨TransportCall.registerListener tid (v, none) ℓ true :: regs, bpF, ?_, ?_, ?_, ?_, ?_⟩
        · simp only [hok, hcalls, List.cons_append]
        · intro c hc
          rcases List.mem_cons.mp hc with hc | hc
          · exact ⟨v, true, hc⟩
          · exact hregs c hc
        · intro p hp
          exact hsub p (mem_backpedalInsert_of_mem bp (v, none) p hp)
        · intro p hp
          rcases hback p hp with hp | hp
          · rcases mem_backpedalInsert bp (v, none) p hp with hp | hp
            · exact Or.inl hp
            · exact Or.inr (by rw [hp]; exact List.mem_cons_self _ _)
          · exact Or.inr (List.mem_cons_of_mem _ hp)
        · intro w hw
          rcases List.mem_cons.mp hw with hw | hw
          · have hwv : w = v := by
              simp only [TransportCall.registerListener.injEq, Prod.mk.injEq] at hw
              exact hw.2.1.1
            rw [hwv]
            exact hsub (v, none) (mem_backpedalInsert_self bp (v, none))
          · exact hsucc w hw
      · simp only [registerPublishFilters, hok, if_false, Bool.false_eq_true] at hu ⊢
        refine ⟨[TransportCall.registerListener tid (v, none) ℓ false], bp, ?_, ?_, ?_, ?_, ?_⟩
        · simp [hok]
        · intro c hc
          rcases List.mem_cons.mp hc with hc | hc
          · exact ⟨v, false, hc⟩
          · simp at hc
        · intro p hp; exact hp
        · intro p hp; exact Or.inl hp
        · intro w hw
          rcases List.mem_cons.mp hw with hw | hw
          · simp only [TransportCall.registerListener.injEq] at hw
            exact absurd hw.2.2.2 (by simp)
          · simp at hw

theorem registry_insert_present (env : TransportEnv) (st : RegistryState)
    (tid : TransportId) (ia oa fid : String) (ch : ChannelId)
    (cache : List SubscriptionInformation) (k : Nat) (L : ForwardingListener)
    (h : assocFind st.listeners (tid, ia, oa) = some (k, L)) :
    ForwardingListeners.insert env st tid ia oa fid ch cache =
      ⟨{ st with listeners := assocUpdate st.listeners (tid, ia, oa) (k + 1, L) }, [],
        Except.ok (if k + 1 > 1 then none else some L)⟩ := by
  simp only [ForwardingListeners.insert]
  rw [h]
  by_cases hk : k + 1 > 1 <;> simp [hk]

theorem registry_insert_rr_fail (env : TransportEnv) (st : RegistryState)
    (tid : TransportId) (ia oa fid : String) (ch : ChannelId)
    (cache : List SubscriptionInformation)
    (habs : assocFind st.listeners (tid, ia, oa) = none)
    (hrr : env.regOk tid (uauthority_to_uuri ia, some (uauthority_to_uuri oa)) = false) :
    ForwardingListeners.insert env st tid ia oa fid ch cache =
      ⟨{ st with nextListener := st.nextListener + 1 },
        [TransportCall.registerListener tid
            (uauthority_to_uuri ia, some (uauthority_to_uuri oa)) st.nextListener false,
          TransportCall.unregisterListener tid
            (uauthority_to_uuri ia, some (uauthority_to_uuri oa)) st.nextListener
            (env.unregOk tid (uauthority_to_uuri ia, some (uauthority_to_uuri oa)))],
        Except.error ForwardingListenerError.failToRegisterNotificationRequestResponseListener⟩ := by
  simp only [ForwardingListeners.insert]
  rw [habs]
  simp [hrr, backpedalInsert, rollbackCalls]

theorem registry_insert_pub_fail (env : TransportEnv) (st : RegistryState)
    (tid : TransportId) (ia oa fid : String) (ch : ChannelId)
    (cache : List SubscriptionInformation) (u : UUri)
    (habs : assocFind st.listeners (tid, ia, oa) = none)
    (hrr : env.regOk tid (uauthority_to_uuri ia, some (uauthority_to_uuri oa)) = true)
    (hfail : (registerPublishFilters env tid st.nextListener
        [(uauthority_to_uuri ia, some (uauthority_to_uuri oa))]
        (derive_source_filters ia oa (lookup_route_subscribers cache oa))).2.2 = some u) :
    ForwardingListeners.insert env st tid ia oa fid ch cache =
      ⟨{ st with nextListener := st.nextListener + 1 },
        TransportCall.registerListener tid
            (uauthority_to_uuri ia, some (uauthority_to_uuri oa)) st.nextListener true ::
          (registerPublishFilters env tid st.nextListener
            [(uauthority_to_uuri ia, some (uauthority_to_uuri oa))]
            (derive_source_filters ia oa (lookup_route_subscribers cache oa))).1,
        Except.error (ForwardingListenerError.failToRegisterPublishListener u)⟩ := by
  simp only [ForwardingListeners.insert]
  rw [habs]
  simp only [hrr, if_true, backpedalInsert, List.not_mem_nil, if_false, List.nil_append]
  rw [hfail]

theorem registry_insert_new_ok (env : TransportEnv) (st : RegistryState)
    (tid : TransportId) (ia oa fid : String) (ch : ChannelId)
    (cache : List SubscriptionInformation)
    (habs : assocFind st.listeners (tid, ia, oa) = none)
    (hrr : env.regOk tid (uauthority_to_uuri ia, some (uauthority_to_uuri oa)) = true)
    (hnone : (registerPublishFilters env tid st.nextListener
        [(uauthority_to_uuri ia, some (uauthority_to_uuri oa))]
        (derive_source_filters ia oa (lookup_route_subscribers cache oa))).2.2 = none) :
    ForwardingListeners.insert env st tid ia oa fid ch cache =
      ⟨{ listeners := st.listeners ++
            [((tid, ia, oa), (1, ⟨st.nextListener, fid, ch⟩))],
          nextListener := st.nextListener + 1 },
        TransportCall.registerListener tid
            (uauthority_to_uuri ia, some (uauthority_to_uuri oa)) st.nextListener true ::
          (registerPublishFilters env tid st.nextListener
            [(uauthority_to_uuri ia, some (uauthority_to_uuri oa))]
            (derive_source_filters ia oa (lookup_route_subscribers cache oa))).1,
        Except.ok (some ⟨st.nextListener, fid, ch⟩)⟩ := by
  simp only [ForwardingListeners.insert]
  rw [habs]
  simp only [hrr, if_true, backpedalInsert, List.not_mem_nil, if_false, List.nil_append]
  rw [hnone]

theorem assocUpdate_map_fst {κ β : Type} [DecidableEq κ] (l : List (κ × β)) (k : κ) (v : β) :
    (assocUpdate l k v).map Prod.fst = l.map Prod.fst := by
  induction l with
  | nil => rfl
  | cons q rest ih =>
      obtain ⟨k', v'⟩ := q
      by_cases hk : k' = k <;> simp [assocUpdate, hk, ih]

theorem pool_refcount_insert_remove (st : PoolState) (t : TransportId)
    (hnd : (st.forwarders.map Prod.fst).Nodup) :
    poolRefcount
        (TransportForwarders.remove (TransportForwarders.insert st t).1 t) t =
      poolRefcount st t := by
  cases hfind : assocFind st.forwarders t with
  | none =>
      have hins : (TransportForwarders.insert st t).1.forwarders =
          st.forwarders ++ [(t, ⟨1, st.nextWorker, st.nextChannel⟩)] := by
        simp [TransportForwarders.insert, hfind]
      have hfind1 : assocFind (TransportForwarders.insert st t).1.forwarders t =
          some ⟨1, st.nextWorker, st.nextChannel⟩ := by
        rw [hins]
        exact assocFind_append_right st.forwarders t _ hfind
      have hrem : TransportForwarders.remove (TransportForwarders.insert st t).1 t =
          { (TransportForwarders.insert st t).1 with
              forwarders := assocErase (TransportForwarders.insert st t).1.forwarders t } := by
        unfold TransportForwarders.remove
        rw [hfind1]
        rfl
      rw [hrem]
      unfold poolRefcount
      rw [hins, assocErase_append_right st.forwarders t _ hfind, hfind]
  | some e =>
      have hins : (TransportForwarders.insert st t).1.forwarders =
          assocUpdate st.forwarders t { e with active := e.active + 1 } := by
        simp [TransportForwarders.insert, hfind]
      have hfind1 : assocFind (TransportForwarders.insert st t).1.forwarders t =
          some { e with active := e.active + 1 } := by
        rw [hins]
        exact assocFind_update_self st.forwarders t e _ hfind
      unfold TransportForwarders.remove
      rw [hfind1]
      simp only [Nat.add_sub_cancel]
      by_cases hz : e.active = 0
      · rw [if_pos hz]
        unfold poolRefcount
        have hnd1 : ((TransportForwarders.insert st t).1.forwarders.map Prod.fst).Nodup := by
          rw [hins, assocUpdate_map_fst]
          exact hnd
        rw [assocFind_erase_self _ t hnd1, hfind]
        simp [hz]
      · rw [if_neg hz]
        unfold poolRefcount
        rw [assocFind_update_self _ t _ _ hfind1, hfind]

theorem registry_insert_err_calls_matched (env : TransportEnv) (rst : RegistryState)
    (tid : TransportId) (ia oa fid : String) (ch : ChannelId)
    (cache : List SubscriptionInformation) (e : ForwardingListenerError)
    (h : (ForwardingListeners.insert env rst tid ia oa fid ch cache).result =
      Except.error e) :
    ∀ p ℓ', TransportCall.registerListener tid p ℓ' true ∈
        (ForwardingListeners.insert env rst tid ia oa fid ch cache).calls →
      ∃ b, TransportCall.unregisterListener tid p ℓ' b ∈
        (ForwardingListeners.insert env rst tid ia oa fid ch cache).calls := by
  cases hfind : assocFind rst.listeners (tid, ia, oa) with
  | some kl =>
      obtain ⟨k, L⟩ := kl
      rw [registry_insert_present env rst tid ia oa fid ch cache k L hfind] at h
      simp at h
  | none =>
      by_cases hrr : env.regOk tid (uauthority_to_uuri ia, some (uauthority_to_uuri oa))
      · cases hfail : (registerPublishFilters env tid rst.nextListener
            [(uauthority_to_uuri ia, some (uauthority_to_uuri oa))]
            (derive_source_filters ia oa (lookup_route_subscribers cache oa))).2.2 with
        | none =>
            rw [registry_insert_new_ok env rst tid ia oa fid ch cache hfind hrr hfail] at h
            simp at h
        | some u =>
            rw [registry_insert_pub_fail env rst tid ia oa fid ch cache u hfind hrr hfail]
            obtain ⟨regs, bpF, hcalls, hregs, hsub, hback, hsucc⟩ :=
              registerPublishFilters_fail_structure env tid rst.nextListener _ _ u hfail
            rw [hcalls]
            intro p ℓ' hp
            rcases List.mem_cons.mp hp with hp | hp
            · simp only [TransportCall.registerListener.injEq] at hp
              obtain ⟨-, hpp, hll, -⟩ := hp
              refine ⟨env.unregOk tid p, ?_⟩
              apply List.mem_cons_of_mem
              apply List.mem_append_right
              rw [hpp, hll]
              have hbp : (uauthority_to_uuri ia, some (uauthority_to_uuri oa)) ∈ bpF :=
                hsub _ (by simp)
              exact List.mem_map_of_mem _ hbp
            · rcases List.mem_append.mp hp with hp | hp
              · obtain ⟨v, ok, hveq⟩ := hregs _ hp
                simp only [TransportCall.registerListener.injEq] at hveq
                obtain ⟨-, hpv, hln, hok⟩ := hveq
                rw [hpv, hln] at hp
                have hmem : (v, (none : Option UUri)) ∈ bpF := hsucc v hp
                refine ⟨env.unregOk tid (v, none), ?_⟩
                apply List.mem_cons_of_mem
                apply List.mem_append_right
                rw [hpv, hln]
                exact List.mem_map_of_mem _ hmem
              · unfold rollbackCalls at hp
                obtain ⟨q, hq, hqe⟩ := List.mem_map.mp hp
                simp at hqe
      · have hrr' : env.regOk tid (uauthority_to_uuri ia, some (uauthority_to_uuri oa)) =
            false := by
          simpa using hrr
        rw [registry_insert_rr_fail env rst tid ia oa fid ch cache hfind hrr']
        intro p ℓ' hp
        simp only [List.mem_cons, List.not_mem_nil, or_false] at hp
        rcases hp with hp | hp
        · simp only [TransportCall.registerListener.injEq] at hp
          exact absurd hp.2.2.2 (by simp)
        · simp at hp

theorem add_ok_shape (env : TransportEnv) (st : StreamerState) (a b : Endpoint)
    (h : (add_forwarding_rule env st a b).result = Except.ok ()) :
    ¬ a.authority = b.authority ∧
    build_forwarding_rule a b ∉ st.registered_forwarding_rules ∧
    (add_forwarding_rule env st a b).state.registered_forwarding_rules =
      st.registered_forwarding_rules ++ [build_forwarding_rule a b] := by
  by_cases h1 : a.authority = b.authority
  · rw [add_same_authority env st a b h1] at h
    simp at h
  · by_cases h2 : build_forwarding_rule a b ∈ st.registered_forwarding_rules
    · rw [add_duplicate env st a b h1 h2] at h
      simp at h
    · cases hr : (addRegistryInsert env st a b).result with
      | error e =>
          rw [add_new_err env st a b h1 h2 e hr] at h
          simp at h
      | ok v =>
          refine ⟨h1, h2, ?_⟩
          rw [add_new_ok env st a b h1 h2 v hr]

theorem not_mem_filter_ne_self (l : List ForwardingRule) (r : ForwardingRule) :
    r ∉ l.filter (fun x => x ≠ r) := by
  simp [List.mem_filter]

/-- Iterated egress-pool insert for the same transport, collecting the
returned senders: models N routes sharing one egress transport. -/
def poolInsertIter (st : PoolState) (t : TransportId) : Nat → PoolState × List ChannelId
  | 0 => (st, [])
  | Nat.succ n =>
      let r := TransportForwarders.insert st t
      let rest := poolInsertIter r.1 t n
      (rest.1, r.2 :: rest.2)

/-- Iterated ingress-registry insert for the same key, collecting the
transport calls of every iteration: models N routes sharing one
(in transport, in authority, out authority) tuple. -/
def regInsertIter (env : TransportEnv) (st : RegistryState) (tid : TransportId)
    (ia oa fid : String) (ch : ChannelId) (cache : List SubscriptionInformation) :
    Nat → RegistryState × List TransportCall
  | 0 => (st, [])
  | Nat.succ n =>
      let r := ForwardingListeners.insert env st tid ia oa fid ch cache
      let rest := regInsertIter env r.state tid ia oa fid ch cache n
      (rest.1, r.calls ++ rest.2)

theorem pool_insert_absent (mq : Nat) (l : List (TransportId × EgressEntry))
    (nw nc : Nat) (t : TransportId) (h : assocFind l t = none) :
    TransportForwarders.insert ⟨mq, l, nw, nc⟩ t =
      (⟨mq, l ++ [(t, ⟨1, nw, nc⟩)], nw + 1, nc + 1⟩, nc) := by
  simp [TransportForwarders.insert, h]

theorem pool_insert_shape (mq : Nat) (l : List (TransportId × EgressEntry))
    (t : TransportId) (e : EgressEntry) (nw nc : Nat) (h : assocFind l t = none) :
    TransportForwarders.insert ⟨mq, l ++ [(t, e)], nw, nc⟩ t =
      (⟨mq, l ++ [(t, { e with active := e.active + 1 })], nw, nc⟩, e.sender) := by
  simp [TransportForwarders.insert, assocFind_append_right l t e h,
    assocUpdate_append_right l t e _ h]

theorem pool_iter_shape (mq : Nat) (l : List (TransportId × EgressEntry))
    (t : TransportId) (h : assocFind l t = none) :
    ∀ (n : Nat) (e : EgressEntry) (nw nc : Nat),
      poolInsertIter ⟨mq, l ++ [(t, e)], nw, nc⟩ t n =
        (⟨mq, l ++ [(t, { e with active := e.active + n })], nw, nc⟩,
          List.replicate n e.sender) := by
  intro n
  induction n with
  | zero =>
      intro e nw nc
      cases e
      simp [poolInsertIter]
  | succ n ih =>
      intro e nw nc
      simp only [poolInsertIter]
      rw [pool_insert_shape mq l t e nw nc h, ih { e with active := e.active + 1 } nw nc]
      have hadd : e.active + 1 + n = e.active + (n + 1) := by omega
      simp only [hadd, List.replicate_succ]

theorem registry_insert_shape (env : TransportEnv) (tid : TransportId)
    (ia oa fid : String) (ch : ChannelId) (cache : List SubscriptionInformation)
    (l : List (ListenerKey × (Nat × ForwardingListener))) (k : Nat)
    (L : ForwardingListener) (nl : Nat)
    (h : assocFind l (tid, ia, oa) = none) :
    ForwardingListeners.insert env ⟨l ++ [((tid, ia, oa), (k, L))], nl⟩ tid ia oa fid ch cache =
      ⟨⟨l ++ [((tid, ia, oa), (k + 1, L))], nl⟩, [],
        Except.ok (if k + 1 > 1 then none else some L)⟩ := by
  have hfind : assocFind (l ++ [((tid, ia, oa), (k, L))]) (tid, ia, oa) = some (k, L) :=
    assocFind_append_right l _ _ h
  rw [registry_insert_present env ⟨l ++ [((tid, ia, oa), (k, L))], nl⟩ tid ia oa fid ch
    cache k L hfind]
  rw [assocUpdate_append_right l (tid, ia, oa) (k, L) (k + 1, L) h]

theorem registry_iter_shape (env : TransportEnv) (tid : TransportId)
    (ia oa fid : String) (ch : ChannelId) (cache : List SubscriptionInformation)
    (l : List (ListenerKey × (Nat × ForwardingListener))) (L : ForwardingListener)
    (nl : Nat) (h : assocFind l (tid, ia, oa) = none) :
    ∀ (n k : Nat),
      regInsertIter env ⟨l ++ [((tid, ia, oa), (k, L))], nl⟩ tid ia oa fid ch cache n =
        (⟨l ++ [((tid, ia, oa), (k + n, L))], nl⟩, []) := by
  intro n
  induction n with
  | zero => intro k; simp [regInsertIter]
  | succ n ih =>
      intro k
      simp only [regInsertIter]
      rw [registry_insert_shape env tid ia oa fid ch cache l k L nl h, ih (k + 1)]
      have hadd : k + 1 + n = k + (n + 1) := by omega
      simp [hadd]

/-! Claim theorems. -/

/-- C3: for every ingress and egress authority and every finite collection
of subscription records, the publish-route resolver returns a
duplicate-free list whose members are exactly the URIs built, for each
record whose topic authority equals the ingress authority or the wildcard
star, from the ingress authority and the topic's ue_id, version and
resource_id; records with other authorities contribute nothing and records
whose URI construction fails are skipped without failing the derivation. -/
theorem publish_resolver_matches_spec (ia ea : String)
    (subs : List SubscriptionInformation)
    (hwf : ∀ s ∈ subs, s.topic.ue_id < 2 ^ 32 ∧ s.topic.ue_version_major < 2 ^ 8 ∧
        s.topic.resource_id < 2 ^ 16) :
    (derive_source_filters ia ea subs).Nodup ∧
    ∀ u, u ∈ derive_source_filters ia ea subs ↔
      ∃ s ∈ subs, (s.topic.authority_name = ia ∨ s.topic.authority_name = "*") ∧
        ia.length ≤ 128 ∧
        u = { authority_name := ia, ue_id := s.topic.ue_id,
              ue_version_major := s.topic.ue_version_major,
              resource_id := s.topic.resource_id } := by
  constructor
  · exact nodup_derive_source_filters_foldl ia ea subs [] List.nodup_nil
  · intro u
    unfold derive_source_filters
    rw [mem_derive_source_filters_foldl]
    simp only [List.not_mem_nil, false_or]
    constructor
    · rintro ⟨s, hs, hder⟩
      obtain ⟨b1, b2, b3⟩ := hwf s hs
      exact ⟨s, hs, (derive_source_filter_for_topic_char ia ea s.topic u b1 b2 b3).mp hder⟩
    · rintro ⟨s, hs, hspec⟩
      obtain ⟨b1, b2, b3⟩ := hwf s hs
      exact ⟨s, hs, (derive_source_filter_for_topic_char ia ea s.topic u b1 b2 b3).mpr hspec⟩

/-- Witness for C3 on the concrete dedupe scenario of the spec: three
records, two sharing one topic on the ingress authority and one on a
foreign authority. -/
theorem publish_resolver_matches_spec_witness :
    (∀ s ∈ [SubscriptionInformation.mk ⟨"authority-a", 0x5BA0, 1, 0x8001⟩
              ⟨"authority-b", 0x5678, 1, 0x1234⟩,
            SubscriptionInformation.mk ⟨"authority-a", 0x5BA0, 1, 0x8001⟩
              ⟨"authority-b", 0x5679, 1, 0x1234⟩,
            SubscriptionInformation.mk ⟨"authority-z", 0x5BA0, 1, 0x8001⟩
              ⟨"authority-b", 0x567A, 1, 0x1234⟩],
        s.topic.ue_id < 2 ^ 32 ∧ s.topic.ue_version_major < 2 ^ 8 ∧
          s.topic.resource_id < 2 ^ 16) ∧
    ((derive_source_filters "authority-a" "authority-b"
        [SubscriptionInformation.mk ⟨"authority-a", 0x5BA0, 1, 0x8001⟩
            ⟨"authority-b", 0x5678, 1, 0x1234⟩,
          SubscriptionInformation.mk ⟨"authority-a", 0x5BA0, 1, 0x8001⟩
            ⟨"authority-b", 0x5679, 1, 0x1234⟩,
          SubscriptionInformation.mk ⟨"authority-z", 0x5BA0, 1, 0x8001⟩
            ⟨"authority-b", 0x567A, 1, 0x1234⟩]).Nodup ∧
      ∀ u, u ∈ derive_source_filters "authority-a" "authority-b"
          [SubscriptionInformation.mk ⟨"authority-a", 0x5BA0, 1, 0x8001⟩
              ⟨"authority-b", 0x5678, 1, 0x1234⟩,
            SubscriptionInformation.mk ⟨"authority-a", 0x5BA0, 1, 0x8001⟩
              ⟨"authority-b", 0x5679, 1, 0x1234⟩,
            SubscriptionInformation.mk ⟨"authority-z", 0x5BA0, 1, 0x8001⟩
              ⟨"authority-b", 0x567A, 1, 0x1234⟩] ↔
        ∃ s ∈ [SubscriptionInformation.mk ⟨"authority-a", 0x5BA0, 1, 0x8001⟩
                  ⟨"authority-b", 0x5678, 1, 0x1234⟩,
                SubscriptionInformation.mk ⟨"authority-a", 0x5BA0, 1, 0x8001⟩
                  ⟨"authority-b", 0x5679, 1, 0x1234⟩,
                SubscriptionInformation.mk ⟨"authority-z", 0x5BA0, 1, 0x8001⟩
                  ⟨"authority-b", 0x567A, 1, 0x1234⟩],
          (s.topic.authority_name = "authority-a" ∨ s.topic.authority_name = "*") ∧
          ("authority-a".length ≤ 128) ∧
          u = { authority_name := "authority-a", ue_id := s.topic.ue_id,
                ue_version_major := s.topic.ue_version_major,
                resource_id := s.topic.resource_id }) :=
  ⟨by decide, publish_resolver_matches_spec "authority-a" "authority-b" _ (by decide)⟩


/-- C7: for all endpoints a and b with a.authority equal to b.authority,
both add_forwarding_rule and delete_forwarding_rule fail with
INVALID_ARGUMENT and leave the route table, egress pool and ingress
registry completely unchanged, performing no transport call. -/
theorem same_authority_rejected (env : TransportEnv) (st : StreamerState) (a b : Endpoint)
    (h : a.authority = b.authority) :
    add_forwarding_rule env st a b = ⟨st, [], Except.error UCode.INVALID_ARGUMENT⟩ ∧
    delete_forwarding_rule env st a b = ⟨st, [], Except.error UCode.INVALID_ARGUMENT⟩ :=
  ⟨add_same_authority env st a b h, delete_same_authority env st a b h⟩

/-- Witness for C7 at concrete endpoints sharing an authority. -/
theorem same_authority_rejected_witness :
    (Endpoint.mk "left" "authority-a" 0).authority =
        (Endpoint.mk "right" "authority-a" 1).authority ∧
    add_forwarding_rule ⟨fun _ _ => true, fun _ _ => true⟩
        ⟨[], ⟨16, [], 0, 0⟩, ⟨[], 0⟩, []⟩ (Endpoint.mk "left" "authority-a" 0)
        (Endpoint.mk "right" "authority-a" 1) =
      ⟨⟨[], ⟨16, [], 0, 0⟩, ⟨[], 0⟩, []⟩, [], Except.error UCode.INVALID_ARGUMENT⟩ :=
  ⟨rfl,
    (same_authority_rejected ⟨fun _ _ => true, fun _ _ => true⟩
      ⟨[], ⟨16, [], 0, 0⟩, ⟨[], 0⟩, []⟩ (Endpoint.mk "left" "authority-a" 0)
      (Endpoint.mk "right" "authority-a" 1) rfl).1⟩

/-- C5: the egress dispatch loop sends every message received before the
first channel closure (continuing after a failed send and after a lag
report, which only logs the skipped count), and it exits exactly when the
receiver reports Closed. -/
theorem route_dispatch_loop_behavior (sendOk : Nat → Bool) (outcomes : List RecvOutcome) :
    (route_dispatch_loop sendOk outcomes).1 = dispatch_events_spec sendOk outcomes ∧
    ((route_dispatch_loop sendOk outcomes).2 = true ↔ RecvOutcome.closed ∈ outcomes) := by
  induction outcomes with
  | nil => simp [route_dispatch_loop, dispatch_events_spec]
  | cons head rest ih =>
      cases head with
      | ok msg =>
          refine ⟨?_, ?_⟩
          · simp [route_dispatch_loop, dispatch_events_spec, List.takeWhile_cons, ih.1]
          · simp [route_dispatch_loop, ih.2]
      | lagged skipped =>
          refine ⟨?_, ?_⟩
          · simp [route_dispatch_loop, dispatch_events_spec, List.takeWhile_cons, ih.1]
          · simp [route_dispatch_loop, ih.2]
      | closed =>
          refine ⟨?_, ?_⟩
          · simp [route_dispatch_loop, dispatch_events_spec, List.takeWhile_cons]
          · simp [route_dispatch_loop]

/-- C8: after a successful add_forwarding_rule, a second call with
endpoints building the same route key fails with ALREADY_EXISTS, leaves
the whole streamer state (route table, pool and registry refcounts)
unchanged and performs no transport call. -/
theorem duplicate_add_rejected (env env2 : TransportEnv) (st : StreamerState)
    (a b a2 b2 : Endpoint)
    (h1 : (add_forwarding_rule env st a b).result = Except.ok ())
    (h2 : build_forwarding_rule a2 b2 = build_forwarding_rule a b) :
    add_forwarding_rule env2 (add_forwarding_rule env st a b).state a2 b2 =
      ⟨(add_forwarding_rule env st a b).state, [], Except.error UCode.ALREADY_EXISTS⟩ := by
  obtain ⟨hauth, _hmem, hrules⟩ := add_ok_shape env st a b h1
  have hmem2 : build_forwarding_rule a2 b2 ∈
      (add_forwarding_rule env st a b).state.registered_forwarding_rules := by
    rw [h2, hrules]
    exact List.mem_append_right _ (List.mem_singleton_self _)
  have hcomp : a2.authority = a.authority ∧ b2.authority = b.authority := by
    unfold build_forwarding_rule at h2
    simp only [Prod.mk.injEq] at h2
    exact ⟨h2.1, h2.2.1⟩
  have hauth2 : ¬ a2.authority = b2.authority := by
    rw [hcomp.1, hcomp.2]
    exact hauth
  exact add_duplicate env2 _ a2 b2 hauth2 hmem2

/-- Witness for C8: a successful add on two distinct-authority endpoints
followed by an identical add fails with ALREADY_EXISTS. -/
theorem duplicate_add_rejected_witness :
    (add_forwarding_rule ⟨fun _ _ => true, fun _ _ => true⟩
        ⟨[], ⟨16, [], 0, 0⟩, ⟨[], 0⟩, []⟩ ⟨"in", "authority-a", 0⟩
        ⟨"out", "authority-b", 1⟩).result = Except.ok () ∧
    add_forwarding_rule ⟨fun _ _ => true, fun _ _ => true⟩
        (add_forwarding_rule ⟨fun _ _ => true, fun _ _ => true⟩
          ⟨[], ⟨16, [], 0, 0⟩, ⟨[], 0⟩, []⟩ ⟨"in", "authority-a", 0⟩
          ⟨"out", "authority-b", 1⟩).state ⟨"in", "authority-a", 0⟩
        ⟨"out", "authority-b", 1⟩ =
      ⟨(add_forwarding_rule ⟨fun _ _ => true, fun _ _ => true⟩
          ⟨[], ⟨16, [], 0, 0⟩, ⟨[], 0⟩, []⟩ ⟨"in", "authority-a", 0⟩
          ⟨"out", "authority-b", 1⟩).state, [], Except.error UCode.ALREADY_EXISTS⟩ :=
  ⟨rfl,
    duplicate_add_rejected ⟨fun _ _ => true, fun _ _ => true⟩
      ⟨fun _ _ => true, fun _ _ => true⟩ ⟨[], ⟨16, [], 0, 0⟩, ⟨[], 0⟩, []⟩
      ⟨"in", "authority-a", 0⟩ ⟨"out", "authority-b", 1⟩ ⟨"in", "authority-a", 0⟩
      ⟨"out", "authority-b", 1⟩ rfl rfl⟩

/-- C9: after add_forwarding_rule and a successful delete_forwarding_rule
of the same endpoints, a second delete fails with NOT_FOUND, leaves the
state unchanged and performs no transport call (the first delete is proved
successful as part of the statement). -/
theorem second_delete_not_found (env1 env2 env3 : TransportEnv) (st : StreamerState)
    (a b : Endpoint)
    (h1 : (add_forwarding_rule env1 st a b).result = Except.ok ()) :
    (delete_forwarding_rule env2 (add_forwarding_rule env1 st a b).state a b).result =
        Except.ok () ∧
    delete_forwarding_rule env3
        (delete_forwarding_rule env2 (add_forwarding_rule env1 st a b).state a b).state a b =
      ⟨(delete_forwarding_rule env2 (add_forwarding_rule env1 st a b).state a b).state, [],
        Except.error UCode.NOT_FOUND⟩ := by
  obtain ⟨hauth, _hmem, hrules⟩ := add_ok_shape env1 st a b h1
  have hmem1 : build_forwarding_rule a b ∈
      (add_forwarding_rule env1 st a b).state.registered_forwarding_rules := by
    rw [hrules]
    exact List.mem_append_right _ (List.mem_singleton_self _)
  have hdel := delete_present env2 (add_forwarding_rule env1 st a b).state a b hauth hmem1
  constructor
  · rw [hdel]
  · have hnot : build_forwarding_rule a b ∉
        (delete_forwarding_rule env2 (add_forwarding_rule env1 st a b).state a b).state.registered_forwarding_rules := by
      rw [hdel]
      exact not_mem_filter_ne_self _ _
    exact delete_missing env3 _ a b hauth hnot

/-- Witness for C9: add then delete on concrete endpoints, with the second
delete failing NOT_FOUND. -/
theorem second_delete_not_found_witness :
    (add_forwarding_rule ⟨fun _ _ => true, fun _ _ => true⟩
        ⟨[], ⟨16, [], 0, 0⟩, ⟨[], 0⟩, []⟩ ⟨"in", "authority-a", 0⟩
        ⟨"out", "authority-b", 1⟩).result = Except.ok () ∧
    ((delete_forwarding_rule ⟨fun _ _ => true, fun _ _ => true⟩
        (add_forwarding_rule ⟨fun _ _ => true, fun _ _ => true⟩
          ⟨[], ⟨16, [], 0, 0⟩, ⟨[], 0⟩, []⟩ ⟨"in", "authority-a", 0⟩
          ⟨"out", "authority-b", 1⟩).state ⟨"in", "authority-a", 0⟩
        ⟨"out", "authority-b", 1⟩).result = Except.ok () ∧
      delete_forwarding_rule ⟨fun _ _ => true, fun _ _ => true⟩
          (delete_forwarding_rule ⟨fun _ _ => true, fun _ _ => true⟩
            (add_forwarding_rule ⟨fun _ _ => true, fun _ _ => true⟩
              ⟨[], ⟨16, [], 0, 0⟩, ⟨[], 0⟩, []⟩ ⟨"in", "authority-a", 0⟩
              ⟨"out", "authority-b", 1⟩).state ⟨"in", "authority-a", 0⟩
            ⟨"out", "authority-b", 1⟩).state ⟨"in", "authority-a", 0⟩
          ⟨"out", "authority-b", 1⟩ =
        ⟨(delete_forwarding_rule ⟨fun _ _ => true, fun _ _ => true⟩
            (add_forwarding_rule ⟨fun _ _ => true, fun _ _ => true⟩
              ⟨[], ⟨16, [], 0, 0⟩, ⟨[], 0⟩, []⟩ ⟨"in", "authority-a", 0⟩
              ⟨"out", "authority-b", 1⟩).state ⟨"in", "authority-a", 0⟩
            ⟨"out", "authority-b", 1⟩).state, [], Except.error UCode.NOT_FOUND⟩) :=
  ⟨rfl,
    second_delete_not_found ⟨fun _ _ => true, fun _ _ => true⟩
      ⟨fun _ _ => true, fun _ _ => true⟩ ⟨fun _ _ => true, fun _ _ => true⟩
      ⟨[], ⟨16, [], 0, 0⟩, ⟨[], 0⟩, []⟩ ⟨"in", "authority-a", 0⟩
      ⟨"out", "authority-b", 1⟩ rfl⟩

/-- C1: when add_forwarding_rule gets past its guards and the ingress
listener registration fails (request/response or any publish filter), the
call returns INVALID_ARGUMENT, the route table does not contain the route
key, the egress-pool refcount of the out transport is back at its pre-call
value, and every register_listener call that succeeded on the in transport
is matched by an unregister_listener call with the same filter pair and
the same listener instance. -/
theorem rollback_on_ingress_failure (env : TransportEnv) (st : StreamerState)
    (i o : Endpoint) (e : ForwardingListenerError)
    (h1 : ¬ i.authority = o.authority)
    (h2 : build_forwarding_rule i o ∉ st.registered_forwarding_rules)
    (h3 : (st.transport_forwarders.forwarders.map Prod.fst).Nodup)
    (h4 : (addRegistryInsert env st i o).result = Except.error e) :
    (add_forwarding_rule env st i o).result = Except.error UCode.INVALID_ARGUMENT ∧
    build_forwarding_rule i o ∉
      (add_forwarding_rule env st i o).state.registered_forwarding_rules ∧
    poolRefcount (add_forwarding_rule env st i o).state.transport_forwarders o.transport =
      poolRefcount st.transport_forwarders o.transport ∧
    (∀ p ℓ', TransportCall.registerListener i.transport p ℓ' true ∈
        (add_forwarding_rule env st i o).calls →
      ∃ b, TransportCall.unregisterListener i.transport p ℓ' b ∈
        (add_forwarding_rule env st i o).calls) := by
  have hadd := add_new_err env st i o h1 h2 e h4
  rw [hadd]
  refine ⟨rfl, not_mem_filter_ne_self _ _,
    pool_refcount_insert_remove st.transport_forwarders o.transport h3, ?_⟩
  have h4' : (ForwardingListeners.insert env st.forwarding_listeners i.transport
      i.authority o.authority (forwarding_id i o)
      (TransportForwarders.insert st.transport_forwarders o.transport).2
      st.subscription_cache).result = Except.error e := h4
  exact registry_insert_err_calls_matched env st.forwarding_listeners i.transport
    i.authority o.authority (forwarding_id i o)
    (TransportForwarders.insert st.transport_forwarders o.transport).2
    st.subscription_cache e h4'

/-- Witness for C1: a transport that rejects every register_listener makes
add_forwarding_rule on an empty streamer fail with full rollback. -/
theorem rollback_on_ingress_failure_witness :
    (addRegistryInsert ⟨fun _ _ => false, fun _ _ => true⟩ ⟨[], ⟨16, [], 0, 0⟩, ⟨[], 0⟩, []⟩
        ⟨"in", "authority-a", 0⟩ ⟨"out", "authority-b", 1⟩).result =
      Except.error ForwardingListenerError.failToRegisterNotificationRequestResponseListener ∧
    ((add_forwarding_rule ⟨fun _ _ => false, fun _ _ => true⟩
        ⟨[], ⟨16, [], 0, 0⟩, ⟨[], 0⟩, []⟩ ⟨"in", "authority-a", 0⟩
        ⟨"out", "authority-b", 1⟩).result = Except.error UCode.INVALID_ARGUMENT ∧
      build_forwarding_rule ⟨"in", "authority-a", 0⟩ ⟨"out", "authority-b", 1⟩ ∉
        (add_forwarding_rule ⟨fun _ _ => false, fun _ _ => true⟩
          ⟨[], ⟨16, [], 0, 0⟩, ⟨[], 0⟩, []⟩ ⟨"in", "authority-a", 0⟩
          ⟨"out", "authority-b", 1⟩).state.registered_forwarding_rules ∧
      poolRefcount (add_forwarding_rule ⟨fun _ _ => false, fun _ _ => true⟩
          ⟨[], ⟨16, [], 0, 0⟩, ⟨[], 0⟩, []⟩ ⟨"in", "authority-a", 0⟩
          ⟨"out", "authority-b", 1⟩).state.transport_forwarders 1 =
        poolRefcount (⟨16, [], 0, 0⟩ : PoolState) 1 ∧
      (∀ p ℓ', TransportCall.registerListener 0 p ℓ' true ∈
          (add_forwarding_rule ⟨fun _ _ => false, fun _ _ => true⟩
            ⟨[], ⟨16, [], 0, 0⟩, ⟨[], 0⟩, []⟩ ⟨"in", "authority-a", 0⟩
            ⟨"out", "authority-b", 1⟩).calls →
        ∃ b, TransportCall.unregisterListener 0 p ℓ' b ∈
          (add_forwarding_rule ⟨fun _ _ => false, fun _ _ => true⟩
            ⟨[], ⟨16, [], 0, 0⟩, ⟨[], 0⟩, []⟩ ⟨"in", "authority-a", 0⟩
            ⟨"out", "authority-b", 1⟩).calls)) :=
  ⟨rfl, rollback_on_ingress_failure ⟨fun _ _ => false, fun _ _ => true⟩
    ⟨[], ⟨16, [], 0, 0⟩, ⟨[], 0⟩, []⟩ ⟨"in", "authority-a", 0⟩ ⟨"out", "authority-b", 1⟩
    ForwardingListenerError.failToRegisterNotificationRequestResponseListener
    (by decide) (by decide) (by decide) rfl⟩

/-- C2 counterexample: when the request/response registration itself fails,
the rollback unregisters the request/response pair even though its
registration never succeeded, because the pair enters the backpedal set
before register_listener is attempted. -/
theorem rollback_set_counterexample :
    TransportCall.unregisterListener 0
        (uauthority_to_uuri "authority-a", some (uauthority_to_uuri "authority-b")) 0 true ∈
      (ForwardingListeners.insert ⟨fun _ _ => false, fun _ _ => true⟩ ⟨[], 0⟩ 0
        "authority-a" "authority-b" "id" 0 []).calls ∧
    TransportCall.registerListener 0
        (uauthority_to_uuri "authority-a", some (uauthority_to_uuri "authority-b")) 0 true ∉
      (ForwardingListeners.insert ⟨fun _ _ => false, fun _ _ => true⟩ ⟨[], 0⟩ 0
        "authority-a" "authority-b" "id" 0 []).calls := by
  decide

/-- C2 amended: the rollback set holds the request/response pair from
before its registration attempt plus exactly the successfully registered
publish pairs; hence when the request/response registration fails the
rollback issues one unregister for that never-registered pair, while in
every execution where the request/response registration succeeded, each
unregister issued during rollback targets a pair whose registration
succeeded earlier in the same insert. -/
theorem rollback_set_amended (env : TransportEnv) (rst : RegistryState)
    (tid : TransportId) (ia oa fid : String) (ch : ChannelId)
    (cache : List SubscriptionInformation)
    (habs : assocFind rst.listeners (tid, ia, oa) = none) :
    (env.regOk tid (uauthority_to_uuri ia, some (uauthority_to_uuri oa)) = false →
      (ForwardingListeners.insert env rst tid ia oa fid ch cache).calls =
        [TransportCall.registerListener tid
            (uauthority_to_uuri ia, some (uauthority_to_uuri oa)) rst.nextListener false,
          TransportCall.unregisterListener tid
            (uauthority_to_uuri ia, some (uauthority_to_uuri oa)) rst.nextListener
            (env.unregOk tid (uauthority_to_uuri ia, some (uauthority_to_uuri oa)))]) ∧
    (env.regOk tid (uauthority_to_uuri ia, some (uauthority_to_uuri oa)) = true →
      ∀ p ℓ' b, TransportCall.unregisterListener tid p ℓ' b ∈
          (ForwardingListeners.insert env rst tid ia oa fid ch cache).calls →
        TransportCall.registerListener tid p ℓ' true ∈
          (ForwardingListeners.insert env rst tid ia oa fid ch cache).calls) := by
  constructor
  · intro hrr
    rw [registry_insert_rr_fail env rst tid ia oa fid ch cache habs hrr]
  · intro hrr
    cases hfail : (registerPublishFilters env tid rst.nextListener
        [(uauthority_to_uuri ia, some (uauthority_to_uuri oa))]
        (derive_source_filters ia oa (lookup_route_subscribers cache oa))).2.2 with
    | none =>
        rw [registry_insert_new_ok env rst tid ia oa fid ch cache habs hrr hfail]
        intro p ℓ' b hp
        rcases List.mem_cons.mp hp with hp | hp
        · exact absurd hp (by simp)
        · obtain ⟨v, hv⟩ :=
            registerPublishFilters_none_calls env tid rst.nextListener _ _ hfail _ hp
          exact absurd hv (by simp)
    | some u =>
        rw [registry_insert_pub_fail env rst tid ia oa fid ch cache u habs hrr hfail]
        obtain ⟨regs, bpF, hcalls, hregs, hsub, hback, hsucc⟩ :=
          registerPublishFilters_fail_structure env tid rst.nextListener _ _ u hfail
        rw [hcalls]
        intro p ℓ' b hp
        rcases List.mem_cons.mp hp with hp | hp
        · exact absurd hp (by simp)
        · rcases List.mem_append.mp hp with hp | hp
          · obtain ⟨v, ok, hveq⟩ := hregs _ hp
            exact absurd hveq (by simp)
          · unfold rollbackCalls at hp
            obtain ⟨q, hq, hqe⟩ := List.mem_map.mp hp
            simp only [TransportCall.unregisterListener.injEq] at hqe
            obtain ⟨-, hqp, hnl, -⟩ := hqe
            rcases hback q hq with hmem | hmem
            · apply List.mem_cons.mpr
              left
              simp only [List.mem_singleton] at hmem
              rw [← hqp, ← hnl, hmem]
            · apply List.mem_cons.mpr
              right
              apply List.mem_append_left
              rw [← hqp, ← hnl]
              exact hmem

/-- Witness for C2 amended: at a rejecting transport the insert on an empty
registry issues exactly the request/response register and its rollback
unregister. -/
theorem rollback_set_amended_witness :
    assocFind (RegistryState.mk [] 0).listeners (0, "authority-a", "authority-b") = none ∧
    (ForwardingListeners.insert ⟨fun _ _ => false, fun _ _ => true⟩ ⟨[], 0⟩ 0
        "authority-a" "authority-b" "id" 0 []).calls =
      [TransportCall.registerListener 0
          (uauthority_to_uuri "authority-a", some (uauthority_to_uuri "authority-b")) 0 false,
        TransportCall.unregisterListener 0
          (uauthority_to_uuri "authority-a", some (uauthority_to_uuri "authority-b")) 0 true] :=
  ⟨rfl, (rollback_set_amended ⟨fun _ _ => false, fun _ _ => true⟩ ⟨[], 0⟩ 0
    "authority-a" "authority-b" "id" 0 [] rfl).1 rfl⟩

/-- C4: N egress-pool inserts of one transport produce a single new entry
with refcount N, a single worker identity and a single channel, every
returned sender being that channel; and N ingress-registry inserts of one
key perform the transport registrations only on the first insert, the
later ones only incrementing the refcount while issuing no transport
call. -/
theorem shared_transport_refcounting (st : PoolState) (t : TransportId)
    (env : TransportEnv) (rst : RegistryState) (tid : TransportId)
    (ia oa fid : String) (ch : ChannelId) (cache : List SubscriptionInformation)
    (n : Nat) (hn : 1 ≤ n)
    (hpool : assocFind st.forwarders t = none)
    (hreg : assocFind rst.listeners (tid, ia, oa) = none)
    (hok : ∀ p, env.regOk tid p = true) :
    assocFind (poolInsertIter st t n).1.forwarders t =
      some ⟨n, st.nextWorker, st.nextChannel⟩ ∧
    (poolInsertIter st t n).1.forwarders.length = st.forwarders.length + 1 ∧
    (poolInsertIter st t n).1.nextWorker = st.nextWorker + 1 ∧
    (poolInsertIter st t n).1.nextChannel = st.nextChannel + 1 ∧
    (poolInsertIter st t n).2 = List.replicate n st.nextChannel ∧
    assocFind (regInsertIter env rst tid ia oa fid ch cache n).1.listeners (tid, ia, oa) =
      some (n, ⟨rst.nextListener, fid, ch⟩) ∧
    (regInsertIter env rst tid ia oa fid ch cache n).2 =
      (ForwardingListeners.insert env rst tid ia oa fid ch cache).calls := by
  obtain ⟨m, rfl⟩ : ∃ m, n = m + 1 := ⟨n - 1, by omega⟩
  obtain ⟨mq, l, nw, nc⟩ := st
  obtain ⟨rl, nl⟩ := rst
  simp only at hpool hreg
  have hpoolIter : poolInsertIter ⟨mq, l, nw, nc⟩ t (m + 1) =
      (⟨mq, l ++ [(t, ⟨1 + m, nw, nc⟩)], nw + 1, nc + 1⟩, List.replicate (m + 1) nc) := by
    simp only [poolInsertIter]
    rw [pool_insert_absent mq l nw nc t hpool,
      pool_iter_shape mq l t hpool m ⟨1, nw, nc⟩ (nw + 1) (nc + 1)]
    simp [List.replicate_succ]
  have hnone := registerPublishFilters_all_ok env tid nl hok
    (derive_source_filters ia oa (lookup_route_subscribers cache oa))
    [(uauthority_to_uuri ia, some (uauthority_to_uuri oa))]
  have hfirst := registry_insert_new_ok env ⟨rl, nl⟩ tid ia oa fid ch cache hreg
    (hok (uauthority_to_uuri ia, some (uauthority_to_uuri oa))) hnone
  have hregIter : regInsertIter env ⟨rl, nl⟩ tid ia oa fid ch cache (m + 1) =
      (⟨rl ++ [((tid, ia, oa), (1 + m, ⟨nl, fid, ch⟩))], nl + 1⟩,
        (ForwardingListeners.insert env ⟨rl, nl⟩ tid ia oa fid ch cache).calls) := by
    simp only [regInsertIter]
    rw [hfirst]
    simp only
    rw [registry_iter_shape env tid ia oa fid ch cache rl ⟨nl, fid, ch⟩ (nl + 1) hreg m 1]
    simp
  rw [hpoolIter, hregIter]
  have h1m : 1 + m = m + 1 := by omega
  refine ⟨?_, ?_, rfl, rfl, rfl, ?_, rfl⟩
  · rw [h1m] at *
    exact assocFind_append_right l t _ hpool
  · simp
  · rw [h1m] at *
    exact assocFind_append_right rl (tid, ia, oa) _ hreg

/-- Witness for C4: two inserts of the same transport and the same
registry key on empty maps with an accepting transport. -/
theorem shared_transport_refcounting_witness :
    ((1 : Nat) ≤ 2 ∧
      assocFind (PoolState.mk 16 [] 0 0).forwarders 5 = none ∧
      assocFind (RegistryState.mk [] 0).listeners (7, "authority-a", "authority-b") = none) ∧
    (assocFind (poolInsertIter ⟨16, [], 0, 0⟩ 5 2).1.forwarders 5 = some ⟨2, 0, 0⟩ ∧
      (poolInsertIter ⟨16, [], 0, 0⟩ 5 2).1.forwarders.length =
        (PoolState.mk 16 [] 0 0).forwarders.length + 1 ∧
      (poolInsertIter ⟨16, [], 0, 0⟩ 5 2).1.nextWorker = 0 + 1 ∧
      (poolInsertIter ⟨16, [], 0, 0⟩ 5 2).1.nextChannel = 0 + 1 ∧
      (poolInsertIter ⟨16, [], 0, 0⟩ 5 2).2 = List.replicate 2 0 ∧
      assocFind (regInsertIter ⟨fun _ _ => true, fun _ _ => true⟩ ⟨[], 0⟩ 7
          "authority-a" "authority-b" "id" 3 [] 2).1.listeners
          (7, "authority-a", "authority-b") = some (2, ⟨0, "id", 3⟩) ∧
      (regInsertIter ⟨fun _ _ => true, fun _ _ => true⟩ ⟨[], 0⟩ 7
          "authority-a" "authority-b" "id" 3 [] 2).2 =
        (ForwardingListeners.insert ⟨fun _ _ => true, fun _ _ => true⟩ ⟨[], 0⟩ 7
          "authority-a" "authority-b" "id" 3 []).calls) :=
  ⟨⟨by decide, rfl, rfl⟩,
    shared_transport_refcounting ⟨16, [], 0, 0⟩ 5 ⟨fun _ _ => true, fun _ _ => true⟩
      ⟨[], 0⟩ 7 "authority-a" "authority-b" "id" 3 [] 2 (by decide) rfl rfl
      (fun _ => rfl)⟩

/-- C6 counterexample: the bootstrap fetch issued by UStreamer::new uses a
subscriber URI whose ue_id field is 0x0000FFFF, not the all-ones value
0xFFFFFFFF the claim states. -/
theorem bootstrap_subscriber_not_all_ones :
    (UStreamer.new 16 (fun _ => [])).2 =
        [{ subscriber := new_bootstrap_subscriber_uuri }] ∧
    new_bootstrap_subscriber_uuri.ue_id = 0x0000FFFF ∧
    (0x0000FFFF : Nat) ≠ 0xFFFFFFFF := by
  refine ⟨rfl, rfl, by decide⟩

/-- C6 amended: UStreamer::new performs exactly one fetch_subscriptions
call; the request's subscriber URI has authority star, ue_id 0x0000FFFF,
major version 0xFF and resource_id 0xFFFF; the fetched result seeds the
subscription cache, which no later add_forwarding_rule or
delete_forwarding_rule mutates. -/
theorem bootstrap_fetch_once_and_cached (message_queue_size : Nat)
    (provider : FetchSubscriptionsRequest → List SubscriptionInformation)
    (env : TransportEnv) (st : StreamerState) (i o : Endpoint) :
    (UStreamer.new message_queue_size provider).2 =
        [{ subscriber := { authority_name := "*", ue_id := 0x0000FFFF,
                           ue_version_major := 0xFF, resource_id := 0xFFFF } }] ∧
    (UStreamer.new message_queue_size provider).1.subscription_cache =
        provider { subscriber := new_bootstrap_subscriber_uuri } ∧
    (add_forwarding_rule env st i o).state.subscription_cache = st.subscription_cache ∧
    (delete_forwarding_rule env st i o).state.subscription_cache = st.subscription_cache :=
  ⟨rfl, rfl, add_subscription_cache_eq env st i o, delete_subscription_cache_eq env st i o⟩

/-- C10: removing an absent egress-pool entry or an absent ingress-registry
entry is a logged no-op leaving the map unchanged, the refcount decrement
is reached only for present entries, and both removals preserve the
invariant that every remaining entry keeps a refcount of at least one. -/
theorem remove_absent_noop_and_refcount_invariant :
    (∀ (st : PoolState) (t : TransportId),
        assocFind st.forwarders t = none → TransportForwarders.remove st t = st) ∧
    (∀ (env : TransportEnv) (st : RegistryState) (tid : TransportId) (ia oa : String)
        (cache : List SubscriptionInformation),
        assocFind st.listeners (tid, ia, oa) = none →
          ForwardingListeners.remove env st tid ia oa cache = (st, [])) ∧
    (∀ (st : PoolState) (t : TransportId),
        (∀ p ∈ st.forwarders, 1 ≤ p.2.active) →
          ∀ p ∈ (TransportForwarders.remove st t).forwarders, 1 ≤ p.2.active) ∧
    (∀ (env : TransportEnv) (st : RegistryState) (tid : TransportId) (ia oa : String)
        (cache : List SubscriptionInformation),
        (∀ p ∈ st.listeners, 1 ≤ p.2.1) →
          ∀ p ∈ (ForwardingListeners.remove env st tid ia oa cache).1.listeners,
            1 ≤ p.2.1) := by
  refine ⟨?_, ?_, ?_, ?_⟩
  · intro st t h
    simp [TransportForwarders.remove, h]
  · intro env st tid ia oa cache h
    simp [ForwardingListeners.remove, h]
  · intro st t hinv p hp
    unfold TransportForwarders.remove at hp
    cases hfind : assocFind st.forwarders t with
    | none => exact hinv p (by rwa [hfind] at hp)
    | some e =>
        rw [hfind] at hp
        simp only at hp
        split at hp
        · exact hinv p (mem_assocErase st.forwarders t p hp)
        · rename_i hne
          rcases mem_assocUpdate st.forwarders t _ p hp with hp | hp
          · rw [hp]
            exact Nat.one_le_iff_ne_zero.mpr hne
          · exact hinv p hp
  · intro env st tid ia oa cache hinv p hp
    simp only [ForwardingListeners.remove] at hp
    cases hfind : assocFind st.listeners (tid, ia, oa) with
    | none => exact hinv p (by rwa [hfind] at hp)
    | some v =>
        obtain ⟨active, fl⟩ := v
        rw [hfind] at hp
        simp only at hp
        split at hp
        · exact hinv p (mem_assocErase st.listeners (tid, ia, oa) p hp)
        · rename_i hne
          rcases mem_assocUpdate st.listeners (tid, ia, oa) _ p hp with hp | hp
          · rw [hp]
            exact Nat.one_le_iff_ne_zero.mpr hne
          · exact hinv p hp

/-- Witness for C10 at a concrete empty pool and registry and at a
concrete singleton state satisfying the refcount invariant. -/
theorem remove_absent_noop_witness :
    TransportForwarders.remove ⟨8, [], 0, 0⟩ 3 = ⟨8, [], 0, 0⟩ ∧
    ForwardingListeners.remove ⟨fun _ _ => true, fun _ _ => true⟩ ⟨[], 0⟩ 3 "a" "b" [] =
      (⟨[], 0⟩, []) ∧
    (∀ p ∈ (TransportForwarders.remove
        ⟨8, [(2, ⟨1, 0, 0⟩)], 1, 1⟩ 2).forwarders, 1 ≤ p.2.active) := by
  refine ⟨?_, ?_, ?_⟩
  · exact remove_absent_noop_and_refcount_invariant.1 ⟨8, [], 0, 0⟩ 3 (by decide)
  · exact remove_absent_noop_and_refcount_invariant.2.1
      ⟨fun _ _ => true, fun _ _ => true⟩ ⟨[], 0⟩ 3 "a" "b" [] (by decide)
  · exact remove_absent_noop_and_refcount_invariant.2.2.1
      ⟨8, [(2, ⟨1, 0, 0⟩)], 1, 1⟩ 2 (by decide)

end UpStreamer
